import Mathlib

/-!
Shallow embedding of the Notepad console command executor
(`applications/notepad/executors/console-executor.py`): the mapping-table
loader, the state-file reader, the dedup-and-dispatch pipeline
(`process_result`), the queue writer, and the startup behaviour of `run`
and the `__main__` entry point.

Modelling conventions:
* Python/JSON values read from the options file are modelled by the
  inductive `Json`; numbers, booleans and null are collapsed into
  `Json.other` (no claim depends on their contents, only on the fact
  that they are neither lists, objects nor strings).
* Python dictionaries are association lists with last-write-wins insert
  (`dictInsert`) and key lookup (`dictGet`); `json.load` produces
  dictionaries with unique keys, so first-match lookup is faithful.
* I/O failure is exogenous: a file read is an `Option` of its parsed
  contents, and queue-file writes take a `writeOk` flag that selects the
  success or failure branch of the `try` block in the source.
* Exceptions that the source catches are modelled by the corresponding
  `Option`/`Bool` failure results; uncaught exceptions do not occur on
  the modelled paths (every modelled function is total).
-/

set_option autoImplicit false

namespace ConsoleExecutor

/-- Json values, as produced by `json.load`. `other` stands for numbers,
booleans and `null`, whose payload no modelled code path inspects. -/
inductive Json where
  | arr (elems : List Json)
  | obj (fields : List (String × Json))
  | str (s : String)
  | other

/-- Python whitespace for `str.strip()` with no argument (the ASCII
part; the source never feeds non-ASCII whitespace to `strip`). -/
def pySpace (c : Char) : Bool :=
  c = ' ' || c = '\t' || c = '\n' || c = '\r' || c = '\x0b' || c = '\x0c'

/-- Python `s.strip()`: drop leading and trailing whitespace. -/
def pyStrip (s : String) : String :=
  String.mk (((s.data.dropWhile pySpace).reverse.dropWhile pySpace).reverse)

/-- Dictionary lookup, `d.get(key)` / `key in d` on a parsed JSON object. -/
def jGet (fields : List (String × Json)) (key : String) : Option Json :=
  match fields with
  | [] => none
  | (k, v) :: rest => if k = key then some v else jGet rest key

/-- The value stored in `ACTION_MAPPINGS` for one wheel option:
`{'command': option['command'], 'description': option['description']}`. -/
structure ActionEntry where
  command : String
  description : String
deriving DecidableEq

/-- The in-memory `ACTION_MAPPINGS` dictionary. -/
def Mappings := List (String × ActionEntry)
deriving DecidableEq

/-- Lookup in `ACTION_MAPPINGS` (`result in ACTION_MAPPINGS` /
`ACTION_MAPPINGS[result]`). -/
def dictGet (m : Mappings) (key : String) : Option ActionEntry :=
  match m with
  | [] => none
  | (k, v) :: rest => if k = key then some v else dictGet rest key

/-- Python dict assignment `ACTION_MAPPINGS[option['name']] = ...`:
overwrite an existing key, otherwise append. -/
def dictInsert (m : Mappings) (key : String) (v : ActionEntry) : Mappings :=
  match m with
  | [] => [(key, v)]
  | (k, w) :: rest => if k = key then (key, v) :: rest else (k, w) :: dictInsert rest key v

/-- Extraction of one option entry inside the `for option in options`
loop: `option['name']`, `option['command']`, `option['description']`.
Any missing field or non-object entry raises (KeyError/TypeError),
which the surrounding `except` turns into a failed load: `none`. -/
def entryOf (j : Json) : Option (String × ActionEntry) :=
  match j with
  | Json.obj fields =>
    match jGet fields "name", jGet fields "command", jGet fields "description" with
    | some (Json.str n), some (Json.str c), some (Json.str d) =>
        some (n, { command := c, description := d })
    | _, _, _ => none
  | _ => none

/-- The `for option in options` loop of `load_action_mappings`: insert
entries left to right; the first entry that raises aborts the load with
`False`, keeping the partially filled dictionary. -/
def loadLoop : List Json → Mappings → Bool × Mappings
  | [], m => (true, m)
  | j :: rest, m =>
    match entryOf j with
    | some (n, e) => loadLoop rest (dictInsert m n e)
    | none => (false, m)

/-- Python iteration `for option in options` when `options` is not a
list: a dict iterates over its keys, a string over its one-character
substrings, and anything else raises TypeError (`none`). -/
def iterElems : Json → Option (List Json)
  | Json.arr es => some es
  | Json.obj fields => some (fields.map (fun p => Json.str p.1))
  | Json.str s => some (s.data.map (fun c => Json.str (String.mk [c])))
  | Json.other => none

/-- Embedding of `load_action_mappings`. The argument is the outcome of
opening and parsing `OPTIONS_FILE`: `none` when `open`/`json.load`
raises. Returns the `True`/`False` result together with the final
contents of the global `ACTION_MAPPINGS` (initially `{}`). -/
def load_action_mappings (optionsFile : Option Json) : Bool × Mappings :=
  match optionsFile with
  | none => (false, [])
  | some (Json.arr elems) => loadLoop elems []
  | some (Json.obj fields) =>
    match jGet fields "options" with
    | none => loadLoop [] []
    | some v =>
      match iterElems v with
      | some elems => loadLoop elems []
      | none => (false, [])
  | some _ => (false, [])

/-- The parsed snapshot handed to `process_result`: the fields the code
extracts from the overlay-data JSON object. `result` is
`data.get("result", "")` (defaults to the empty string when absent);
`timestamp` is the f-string rendering of `data.get("timestamp")` (a
string, a number rendered in decimal, or "None" when absent); `mods` is
`data.get("mods", [])`. -/
structure ResultEvent where
  result : String
  timestamp : String
  mods : List String
deriving DecidableEq

/-- The mutable state of a `NotepadCommandExecutor` together with the
contents of the queue file it appends to: `processed_results` is the
in-memory set (membership is all the code uses), `queueFile` the text of
`overlay-commands.txt`. -/
structure ExecState where
  processed_results : List String
  queueFile : String
deriving DecidableEq

/-- Python `set.add`. -/
def setAdd (s : List String) (k : String) : List String :=
  if k ∈ s then s else k :: s

/-- One observable side effect of `process_result`, in execution order:
`emit cmd` is the call `self.execute_notepad_command(cmd)` handing `cmd`
to the queue writer; `mark key` is `self.processed_results.add(key)`. -/
inductive Effect where
  | emit (cmd : String)
  | mark (key : String)
deriving DecidableEq

/-- Embedding of `write_command_queue`. `writeOk` selects the branch of
the `try` block: on success every command is appended followed by a
newline, in order, in one open/append/close cycle, and `True` is
returned; on failure (mkdir/open raising) the file is untouched and
`False` is returned after logging. -/
def write_command_queue (writeOk : Bool) (file : String) (commands : List String) :
    Bool × String :=
  if writeOk then (true, commands.foldl (fun f cmd => f ++ cmd ++ "\n") file)
  else (false, file)

/-- Embedding of `execute_notepad_command`: queue the single command. -/
def execute_notepad_command (writeOk : Bool) (file : String) (command : String) :
    Bool × String :=
  write_command_queue writeOk file [command]

/-- The dedup key `f"{result}_{timestamp}"` built from the trimmed
result and the rendered timestamp. -/
def resultKeyOf (result timestamp : String) : String :=
  result ++ "_" ++ timestamp

/-- Embedding of `process_result`. Returns the `True`/`False` dispatch
outcome, the state after the call (processed set and queue file), and
the ordered list of side effects the call performed. The source ignores
the return value of `execute_notepad_command`, so a failed write
(`writeOk = false`) changes neither the outcome nor the marking. -/
def process_result (mappings : Mappings) (writeOk : Bool) (st : ExecState)
    (data : ResultEvent) : Bool × ExecState × List Effect :=
  let result := pyStrip data.result
  let timestamp := data.timestamp
  let result_key := resultKeyOf result timestamp
  if result_key ∈ st.processed_results then
    (false, st, [])
  else if result = "" then
    (false, st, [])
  else
    match dictGet mappings result with
    | some action =>
      let file' := (execute_notepad_command writeOk st.queueFile action.command).2
      (true,
        { processed_results := setAdd st.processed_results result_key, queueFile := file' },
        [Effect.emit action.command, Effect.mark result_key])
    | none => (false, st, [])

/-- A sequence of `process_result` calls during one process lifetime:
the final state, paired with each call's event and its effect trace. -/
def runEvents (mappings : Mappings) (writeOk : Bool) :
    ExecState → List ResultEvent → ExecState × List (ResultEvent × List Effect)
  | st, [] => (st, [])
  | st, e :: es =>
    let r := process_result mappings writeOk st e
    let rest := runEvents mappings writeOk r.2.1 es
    (rest.1, (e, r.2.2) :: rest.2)

/-- Number of commands handed to the queue writer in a trace. -/
def countEmits (effs : List Effect) : Nat :=
  (effs.filter (fun eff => match eff with | Effect.emit _ => true | Effect.mark _ => false)).length

/-- Keys recorded as processed by a trace. -/
def keysMarked (effs : List Effect) : List String :=
  effs.filterMap (fun eff => match eff with | Effect.mark k => some k | Effect.emit _ => none)

/-- Whether an event belongs to the class of snapshots with this trimmed
result and this timestamp. -/
def inClass (r t : String) (e : ResultEvent) : Bool :=
  pyStrip e.result == r && e.timestamp == t

/-- Commands handed to the queue writer by the calls whose event has
trimmed result `r` and timestamp `t`. -/
def classEmits (r t : String) (calls : List (ResultEvent × List Effect)) : Nat :=
  (calls.map (fun c => if inClass r t c.1 then countEmits c.2 else 0)).sum

/-- True when some `emit` occurs in the trace at a point where `key` is
in neither the initial processed set nor the marks made earlier in the
trace: a command write happening while the key is absent from the set. -/
def emitWhileUnmarked (init : List String) (key : String) (effs : List Effect) : Bool :=
  (List.range effs.length).any (fun i =>
    (match effs.get? i with | some (Effect.emit _) => true | _ => false)
      && !((init ++ keysMarked (effs.take i)).contains key))

/-- The observable condition of the overlay-data state file at one poll:
absent, present but unreadable (`open` raises, caught and logged), or
present with raw text contents. -/
inductive FileState where
  | absent
  | unreadable
  | content (raw : String)

/-- Embedding of `read_data_file`, parameterised by the parser
(`json.load` plus field extraction): `parse raw = none` models a
`json.JSONDecodeError` on `raw`. An absent file and an unreadable file
both return `None`; no condition escapes as an exception. -/
def read_data_file (parse : String → Option ResultEvent) :
    FileState → Option ResultEvent
  | FileState.absent => none
  | FileState.unreadable => none
  | FileState.content raw => parse raw

/-- How a call to `run` leaves the process: it either returns during
startup because the mapping load failed (printing a message), or it
reaches the infinite watch loop with the loaded mappings. -/
inductive RunOutcome where
  | startupFailure (message : String)
  | enteredLoop (mappings : Mappings)
deriving DecidableEq

/-- Embedding of the startup part of `run`: load the mappings; on
failure print `"Failed to load action mappings"` and return without
entering the poll loop; on success enter the loop. -/
def run (optionsFile : Option Json) : RunOutcome :=
  match load_action_mappings optionsFile with
  | (false, _) => RunOutcome.startupFailure "Failed to load action mappings"
  | (true, m) => RunOutcome.enteredLoop m

/-- Exit status of the `__main__` block. `run` has no `sys.exit` call:
it returns normally both after a startup failure and after the loop is
broken by `KeyboardInterrupt`, so the interpreter exits with status 0 on
every modelled path. -/
def main_exit_code (optionsFile : Option Json) : Nat :=
  match run optionsFile with
  | RunOutcome.startupFailure _ => 0
  | RunOutcome.enteredLoop _ => 0

/-- Membership after `set.add`. -/
theorem mem_setAdd {s : List String} {a k : String} :
    a ∈ setAdd s k ↔ a = k ∨ a ∈ s := by
  unfold setAdd
  split
  · constructor
    · exact fun h => Or.inr h
    · rintro (rfl | h)
      · assumption
      · assumption
  · simp [List.mem_cons]

/-- The added key is in the set. -/
theorem self_mem_setAdd (s : List String) (k : String) : k ∈ setAdd s k :=
  mem_setAdd.mpr (Or.inl rfl)

/-- Inversion of `process_result`: a call either dispatches nothing and
leaves the state untouched, or looks up an action, writes it, marks the
key and returns `True`. -/
theorem process_result_inv (mappings : Mappings) (writeOk : Bool) (st : ExecState)
    (e : ResultEvent) :
    process_result mappings writeOk st e = (false, st, []) ∨
    ∃ action, dictGet mappings (pyStrip e.result) = some action ∧
      resultKeyOf (pyStrip e.result) e.timestamp ∉ st.processed_results ∧
      pyStrip e.result ≠ "" ∧
      process_result mappings writeOk st e =
        (true,
         { processed_results := setAdd st.processed_results
             (resultKeyOf (pyStrip e.result) e.timestamp),
           queueFile := (execute_notepad_command writeOk st.queueFile action.command).2 },
         [Effect.emit action.command,
          Effect.mark (resultKeyOf (pyStrip e.result) e.timestamp)]) := by
  by_cases h1 : resultKeyOf (pyStrip e.result) e.timestamp ∈ st.processed_results
  · left
    simp [process_result, h1]
  · by_cases h2 : pyStrip e.result = ""
    · left
      simp [process_result, h1, h2]
    · cases hd : dictGet mappings (pyStrip e.result) with
      | none =>
        left
        simp [process_result, h1, h2, hd]
      | some action =>
        right
        exact ⟨action, rfl, h1, h2, by simp [process_result, h1, h2, hd]⟩

/-- A call with its key already processed is a no-op returning `False`. -/
theorem process_result_skip (mappings : Mappings) (writeOk : Bool) (st : ExecState)
    (e : ResultEvent)
    (h : resultKeyOf (pyStrip e.result) e.timestamp ∈ st.processed_results) :
    process_result mappings writeOk st e = (false, st, []) := by
  simp [process_result, h]

/-- A non-dispatching call is a no-op. -/
theorem process_result_of_false (mappings : Mappings) (writeOk : Bool) (st : ExecState)
    (e : ResultEvent) (h : (process_result mappings writeOk st e).1 = false) :
    process_result mappings writeOk st e = (false, st, []) := by
  rcases process_result_inv mappings writeOk st e with heq | ⟨action, _, _, _, heq⟩
  · exact heq
  · rw [heq] at h
    simp at h

/-- The processed set only grows. -/
theorem processed_mono (mappings : Mappings) (writeOk : Bool) (st : ExecState)
    (e : ResultEvent) {k : String} (h : k ∈ st.processed_results) :
    k ∈ (process_result mappings writeOk st e).2.1.processed_results := by
  rcases process_result_inv mappings writeOk st e with heq | ⟨action, _, _, _, heq⟩
  · rw [heq]
    exact h
  · rw [heq]
    exact mem_setAdd.mpr (Or.inr h)

/-- A dispatching call marks its own key. -/
theorem dispatch_marks (mappings : Mappings) (writeOk : Bool) (st : ExecState)
    (e : ResultEvent) (h : (process_result mappings writeOk st e).1 = true) :
    resultKeyOf (pyStrip e.result) e.timestamp
      ∈ (process_result mappings writeOk st e).2.1.processed_results := by
  rcases process_result_inv mappings writeOk st e with heq | ⟨action, _, _, _, heq⟩
  · rw [heq] at h
    simp at h
  · rw [heq]
    exact self_mem_setAdd _ _

theorem runEvents_nil (mappings : Mappings) (writeOk : Bool) (st : ExecState) :
    runEvents mappings writeOk st [] = (st, []) := rfl

theorem runEvents_cons (mappings : Mappings) (writeOk : Bool) (st : ExecState)
    (e : ResultEvent) (es : List ResultEvent) :
    runEvents mappings writeOk st (e :: es) =
      ((runEvents mappings writeOk (process_result mappings writeOk st e).2.1 es).1,
       (e, (process_result mappings writeOk st e).2.2)
         :: (runEvents mappings writeOk (process_result mappings writeOk st e).2.1 es).2) := rfl

/-- Unfolding `inClass` to a propositional description. -/
theorem inClass_iff (r t : String) (e : ResultEvent) :
    inClass r t e = true ↔ pyStrip e.result = r ∧ e.timestamp = t := by
  simp [inClass]

theorem classEmits_nil (r t : String) : classEmits r t [] = 0 := rfl

theorem classEmits_cons (r t : String) (c : ResultEvent × List Effect)
    (calls : List (ResultEvent × List Effect)) :
    classEmits r t (c :: calls) =
      (if inClass r t c.1 then countEmits c.2 else 0) + classEmits r t calls := by
  simp [classEmits]

/-- Once the class key is in the processed set, no later call of that
class ever hands a command to the queue writer. -/
theorem classEmits_zero_of_marked (mappings : Mappings) (writeOk : Bool) (r t : String) :
    ∀ (es : List ResultEvent) (st : ExecState),
      resultKeyOf r t ∈ st.processed_results →
      classEmits r t (runEvents mappings writeOk st es).2 = 0
  | [], st, _ => rfl
  | e :: es, st, h => by
    rw [runEvents_cons, classEmits_cons]
    by_cases hc : inClass r t e
    · obtain ⟨hr, ht⟩ := (inClass_iff r t e).mp hc
      have hk : resultKeyOf (pyStrip e.result) e.timestamp ∈ st.processed_results := by
        rw [hr, ht]
        exact h
      rw [process_result_skip mappings writeOk st e hk]
      have ih := classEmits_zero_of_marked mappings writeOk r t es st h
      simp [hc, countEmits, ih]
    · have hmem := processed_mono mappings writeOk st e (k := resultKeyOf r t) h
      have ih := classEmits_zero_of_marked mappings writeOk r t es
        (process_result mappings writeOk st e).2.1 hmem
      simp [hc, ih]

/-- Across any sequence of calls in one process lifetime, the calls of
one (trimmed result, timestamp) class hand at most one command to the
queue writer. -/
theorem classEmits_le_one (mappings : Mappings) (writeOk : Bool) (r t : String) :
    ∀ (es : List ResultEvent) (st : ExecState),
      classEmits r t (runEvents mappings writeOk st es).2 ≤ 1
  | [], st => Nat.zero_le 1
  | e :: es, st => by
    rw [runEvents_cons, classEmits_cons]
    by_cases hc : inClass r t e
    · cases hb : (process_result mappings writeOk st e).1 with
      | false =>
        have heq := process_result_of_false mappings writeOk st e hb
        rw [heq]
        simp [hc, countEmits]
        exact classEmits_le_one mappings writeOk r t es st
      | true =>
        obtain ⟨hr, ht⟩ := (inClass_iff r t e).mp hc
        have hmark := dispatch_marks mappings writeOk st e hb
        rw [hr, ht] at hmark
        have hz := classEmits_zero_of_marked mappings writeOk r t es
          (process_result mappings writeOk st e).2.1 hmark
        rcases process_result_inv mappings writeOk st e with heq | ⟨action, _, _, _, heq⟩
        · rw [heq] at hb
          simp at hb
        · rw [heq] at hz ⊢
          simp [hc, countEmits, hz]
    · have ih := classEmits_le_one mappings writeOk r t es
        (process_result mappings writeOk st e).2.1
      simp [hc, ih]

/-- Replaying one event any number of times from a state whose processed
set contains its key changes nothing. -/
theorem runEvents_replicate_fixed (mappings : Mappings) (writeOk : Bool) (e : ResultEvent) :
    ∀ (n : Nat) (st : ExecState),
      resultKeyOf (pyStrip e.result) e.timestamp ∈ st.processed_results →
      (runEvents mappings writeOk st (List.replicate n e)).1 = st
  | 0, st, _ => rfl
  | n + 1, st, h => by
    rw [List.replicate_succ, runEvents_cons]
    rw [process_result_skip mappings writeOk st e h]
    exact runEvents_replicate_fixed mappings writeOk e n st h

/-- Splitting at a separator element that occurs in neither left part is
unambiguous. -/
theorem append_cons_inj {α : Type} (c : α) :
    ∀ (l₁ l₂ l₁' l₂' : List α), c ∉ l₁ → c ∉ l₂ →
      l₁ ++ c :: l₁' = l₂ ++ c :: l₂' → l₁ = l₂ ∧ l₁' = l₂' := by
  intro l₁
  induction l₁ with
  | nil =>
    intro l₂ l₁' l₂' _ h₂ h
    cases l₂ with
    | nil =>
      refine ⟨rfl, ?_⟩
      simpa using h
    | cons b bs =>
      simp only [List.nil_append, List.cons_append, List.cons.injEq] at h
      exact absurd (h.1 ▸ List.mem_cons_self b bs) h₂
  | cons a as ih =>
    intro l₂ l₁' l₂' h₁ h₂ h
    cases l₂ with
    | nil =>
      simp only [List.nil_append, List.cons_append, List.cons.injEq] at h
      exact absurd (h.1 ▸ List.mem_cons_self a as) h₁
    | cons b bs =>
      simp only [List.cons_append, List.cons.injEq] at h
      obtain ⟨hab, h'⟩ := h
      have h₁' : c ∉ as := fun hm => h₁ (List.mem_cons_of_mem _ hm)
      have h₂' : c ∉ bs := fun hm => h₂ (List.mem_cons_of_mem _ hm)
      obtain ⟨he, ht⟩ := ih bs l₁' l₂' h₁' h₂' h'
      exact ⟨by rw [hab, he], ht⟩

/-- Character-level contents of a dedup key. -/
theorem resultKeyOf_data (r t : String) :
    (resultKeyOf r t).data = r.data ++ '_' :: t.data := by
  unfold resultKeyOf
  rw [String.congr_append, String.congr_append]
  simp

/-- The queue-writer loop appends the newline-terminated commands, in
order, after the untouched previous contents. -/
theorem write_fold_eq (cmds : List String) :
    ∀ file : String,
      cmds.foldl (fun f cmd => f ++ cmd ++ "\n") file
        = file ++ cmds.foldr (fun cmd acc => cmd ++ "\n" ++ acc) "" := by
  induction cmds with
  | nil =>
    intro file
    simp
  | cons c cs ih =>
    intro file
    rw [List.foldl_cons, List.foldr_cons, ih (file ++ c ++ "\n")]
    rw [String.append_assoc, String.append_assoc, String.append_assoc]

/-- The mapping table of the spec's round-trip scenario. -/
def fireRuneMappings : Mappings :=
  [("Fire Rune", { command := "CAST_FIRE", description := "Casts fire rune" })]

/-- Fresh executor over an empty queue file. -/
def emptyState : ExecState := { processed_results := [], queueFile := "" }

/-- The spec's round-trip snapshot. -/
def fireRuneEvent : ResultEvent := { result := "Fire Rune", timestamp := "T1", mods := ["modA"] }

/-- Two mapped results whose names straddle the `_` separator. -/
def underscoreMappings : Mappings :=
  [("a_b", { command := "CMD1", description := "first" }),
   ("a", { command := "CMD2", description := "second" })]

/-- Event with result `a_b` and timestamp `c`. -/
def evAB : ResultEvent := { result := "a_b", timestamp := "c", mods := [] }

/-- Event with result `a` and timestamp `b_c`: a different snapshot with
the same derived key as `evAB`. -/
def evA : ResultEvent := { result := "a", timestamp := "b_c", mods := [] }

/-- All-whitespace result. -/
def blankEvent : ResultEvent := { result := "   ", timestamp := "T9", mods := [] }

/-- Non-empty result absent from `fireRuneMappings`. -/
def unmappedEvent : ResultEvent := { result := "Zap", timestamp := "T1", mods := [] }

/-- A parser recognising exactly the raw text "ok". -/
def demoParse (raw : String) : Option ResultEvent :=
  if raw = "ok" then some fireRuneEvent else none

end ConsoleExecutor


namespace ConsoleExecutor

/-- C1: At-most-once dispatch. Over any sequence of `process_result`
calls in one process lifetime, the calls whose event has a given trimmed
result and timestamp hand at most one command to the queue writer; and
once an event has been dispatched, replaying the identical snapshot any
number of times leaves the executor state — queue file included —
unchanged, so no further line is appended. -/
theorem at_most_once_dispatch (mappings : Mappings) (writeOk : Bool) (st₀ : ExecState)
    (r t : String) (es : List ResultEvent) (e : ResultEvent)
    (hd : (process_result mappings writeOk st₀ e).1 = true) :
    classEmits r t (runEvents mappings writeOk st₀ es).2 ≤ 1 ∧
    ∀ n : Nat,
      (runEvents mappings writeOk (process_result mappings writeOk st₀ e).2.1
        (List.replicate n e)).1 = (process_result mappings writeOk st₀ e).2.1 :=
  ⟨classEmits_le_one mappings writeOk r t es st₀,
   fun n => runEvents_replicate_fixed mappings writeOk e n _
     (dispatch_marks mappings writeOk st₀ e hd)⟩

/-- Witness for C1: the Fire Rune snapshot polled three times dispatches
at most once, and replaying it after the first dispatch is a no-op. -/
theorem at_most_once_dispatch_witness :
    (process_result fireRuneMappings true emptyState fireRuneEvent).1 = true ∧
    classEmits "Fire Rune" "T1"
      (runEvents fireRuneMappings true emptyState
        [fireRuneEvent, fireRuneEvent, fireRuneEvent]).2 ≤ 1 ∧
    (runEvents fireRuneMappings true
      (process_result fireRuneMappings true emptyState fireRuneEvent).2.1
      (List.replicate 3 fireRuneEvent)).1
      = (process_result fireRuneMappings true emptyState fireRuneEvent).2.1 :=
  ⟨by decide,
   (at_most_once_dispatch fireRuneMappings true emptyState "Fire Rune" "T1"
      [fireRuneEvent, fireRuneEvent, fireRuneEvent] fireRuneEvent (by decide)).1,
   (at_most_once_dispatch fireRuneMappings true emptyState "Fire Rune" "T1"
      [fireRuneEvent, fireRuneEvent, fireRuneEvent] fireRuneEvent (by decide)).2 3⟩

/-- C2 counterexample: on a concrete dispatching call the command is
handed to the queue writer at a moment when its ResultKey is still
absent from the processed set — the mark happens after the emission, not
before it as the claim states. -/
theorem key_marked_before_emit_cex :
    (process_result fireRuneMappings true emptyState fireRuneEvent).1 = true ∧
    emitWhileUnmarked emptyState.processed_results
      (resultKeyOf (pyStrip fireRuneEvent.result) fireRuneEvent.timestamp)
      (process_result fireRuneMappings true emptyState fireRuneEvent).2.2 = true := by
  decide

/-- C2 (amended): in every dispatching execution of `process_result` the
command is emitted to the queue writer first and the ResultKey is
recorded immediately afterwards, within the same call; at the moment of
the write the key is not yet in the processed set. -/
theorem emit_precedes_mark (mappings : Mappings) (writeOk : Bool) (st : ExecState)
    (e : ResultEvent) (h : (process_result mappings writeOk st e).1 = true) :
    (dictGet mappings (pyStrip e.result)).isSome = true ∧
    (process_result mappings writeOk st e).2.2
      = [Effect.emit ((dictGet mappings (pyStrip e.result)).getD
           { command := "", description := "" }).command,
         Effect.mark (resultKeyOf (pyStrip e.result) e.timestamp)] ∧
    resultKeyOf (pyStrip e.result) e.timestamp ∉ st.processed_results := by
  rcases process_result_inv mappings writeOk st e with heq | ⟨action, hd, hk, hr, heq⟩
  · rw [heq] at h
    simp at h
  · rw [heq, hd]
    exact ⟨rfl, by simp, hk⟩

/-- Witness for C2 (amended) at the Fire Rune dispatch. -/
theorem emit_precedes_mark_witness :
    (process_result fireRuneMappings true emptyState fireRuneEvent).1 = true ∧
    ((dictGet fireRuneMappings (pyStrip fireRuneEvent.result)).isSome = true ∧
     (process_result fireRuneMappings true emptyState fireRuneEvent).2.2
       = [Effect.emit ((dictGet fireRuneMappings (pyStrip fireRuneEvent.result)).getD
            { command := "", description := "" }).command,
          Effect.mark (resultKeyOf (pyStrip fireRuneEvent.result) fireRuneEvent.timestamp)] ∧
     resultKeyOf (pyStrip fireRuneEvent.result) fireRuneEvent.timestamp
       ∉ emptyState.processed_results) :=
  ⟨by decide, emit_precedes_mark fireRuneMappings true emptyState fireRuneEvent (by decide)⟩

end ConsoleExecutor

namespace ConsoleExecutor

/-- C3 counterexample: the events `evAB` (result `a_b`, timestamp `c`)
and `evA` (result `a`, timestamp `b_c`) have different (trimmed result,
timestamp) pairs but the same derived ResultKey `a_b_c`, and dispatching
the first suppresses the dispatch of the second even though it is a
distinct, mapped event. -/
theorem result_key_injective_cex :
    pyStrip evAB.result ≠ pyStrip evA.result ∧
    resultKeyOf (pyStrip evAB.result) evAB.timestamp
      = resultKeyOf (pyStrip evA.result) evA.timestamp ∧
    (process_result underscoreMappings true emptyState evAB).1 = true ∧
    (dictGet underscoreMappings (pyStrip evA.result)).isSome = true ∧
    (process_result underscoreMappings true
      (process_result underscoreMappings true emptyState evAB).2.1 evA).1 = false := by
  decide

/-- C3 (amended): ResultKey derivation is injective only on events whose
trimmed results contain no `_` separator character: under that
restriction, equal keys force equal trimmed results and equal
timestamps; with a `_` inside a result value the key can collide and one
event's dedup record can suppress a distinct event. -/
theorem result_key_injective_no_sep (r₁ t₁ r₂ t₂ : String)
    (h₁ : '_' ∉ r₁.data) (h₂ : '_' ∉ r₂.data)
    (hk : resultKeyOf r₁ t₁ = resultKeyOf r₂ t₂) :
    r₁ = r₂ ∧ t₁ = t₂ := by
  have hdata : r₁.data ++ '_' :: t₁.data = r₂.data ++ '_' :: t₂.data := by
    rw [← resultKeyOf_data, ← resultKeyOf_data, hk]
  obtain ⟨hr, ht⟩ := append_cons_inj '_' r₁.data r₂.data t₁.data t₂.data h₁ h₂ hdata
  constructor
  · cases r₁
    cases r₂
    exact congrArg String.mk hr
  · cases t₁
    cases t₂
    exact congrArg String.mk ht

/-- Witness for C3 (amended) on separator-free values. -/
theorem result_key_injective_no_sep_witness :
    ('_' ∉ ("Fire Rune" : String).data) ∧
    (("Fire Rune" : String) = "Fire Rune" ∧ ("T1" : String) = "T1") :=
  ⟨by decide,
   result_key_injective_no_sep "Fire Rune" "T1" "Fire Rune" "T1" (by decide) (by decide) rfl⟩

/-- C4 counterexample: with an unreadable options file the mapping load
fails and the process prints its message and never reaches the poll
loop, but the `__main__` block exits with status 0, not a non-zero
status: `run` returns normally and nothing calls `sys.exit`. -/
theorem startup_failure_exit_code_cex :
    (load_action_mappings none).1 = false ∧
    run none = RunOutcome.startupFailure "Failed to load action mappings" ∧
    main_exit_code none = 0 := by
  decide

/-- C4 (amended): if the mapping load fails the process never enters the
poll loop and prints the human-readable message
"Failed to load action mappings", but it terminates with exit status 0
(a normal return), not a non-zero status. -/
theorem startup_failure_no_poll_loop (optionsFile : Option Json)
    (h : (load_action_mappings optionsFile).1 = false) :
    run optionsFile = RunOutcome.startupFailure "Failed to load action mappings" ∧
    main_exit_code optionsFile = 0 := by
  have hrun : run optionsFile = RunOutcome.startupFailure "Failed to load action mappings" := by
    unfold run
    rcases hp : load_action_mappings optionsFile with ⟨b, m⟩
    rw [hp] at h
    simp at h
    rw [h]
  refine ⟨hrun, ?_⟩
  unfold main_exit_code
  rw [hrun]

/-- Witness for C4 (amended): an options file whose open/parse raises. -/
theorem startup_failure_no_poll_loop_witness :
    (load_action_mappings none).1 = false ∧
    (run none = RunOutcome.startupFailure "Failed to load action mappings" ∧
     main_exit_code none = 0) :=
  ⟨by decide, startup_failure_no_poll_loop none (by decide)⟩

end ConsoleExecutor

namespace ConsoleExecutor

/-- C5: a queue-file write failure during a dispatch neither changes the
dispatch outcome nor prevents the ResultKey from being marked processed:
with the write failing, the call still returns "dispatched", the key is
in the processed set exactly as in the successful-write run (so the
event is permanently dropped, never retried), and no line reaches the
queue file. The call is total, so the failure never escapes
`process_result` and the poll loop continues. -/
theorem write_failure_tolerated (mappings : Mappings) (st : ExecState) (e : ResultEvent)
    (h : (process_result mappings true st e).1 = true) :
    (process_result mappings false st e).1 = true ∧
    resultKeyOf (pyStrip e.result) e.timestamp
      ∈ (process_result mappings false st e).2.1.processed_results ∧
    (process_result mappings false st e).2.1.queueFile = st.queueFile ∧
    (process_result mappings false st e).2.1.processed_results
      = (process_result mappings true st e).2.1.processed_results := by
  rcases process_result_inv mappings true st e with heq | ⟨action, hd, hk, hr, heq⟩
  · rw [heq] at h
    simp at h
  · have heq' : process_result mappings false st e =
      (true,
       { processed_results := setAdd st.processed_results
           (resultKeyOf (pyStrip e.result) e.timestamp),
         queueFile := (execute_notepad_command false st.queueFile action.command).2 },
       [Effect.emit action.command,
        Effect.mark (resultKeyOf (pyStrip e.result) e.timestamp)]) := by
      simp [process_result, hk, hr, hd]
    rw [heq', heq]
    refine ⟨rfl, self_mem_setAdd _ _, ?_, rfl⟩
    simp [execute_notepad_command, write_command_queue]

/-- Witness for C5 at the Fire Rune dispatch with a failing write. -/
theorem write_failure_tolerated_witness :
    (process_result fireRuneMappings true emptyState fireRuneEvent).1 = true ∧
    ((process_result fireRuneMappings false emptyState fireRuneEvent).1 = true ∧
     resultKeyOf (pyStrip fireRuneEvent.result) fireRuneEvent.timestamp
       ∈ (process_result fireRuneMappings false emptyState fireRuneEvent).2.1.processed_results ∧
     (process_result fireRuneMappings false emptyState fireRuneEvent).2.1.queueFile
       = emptyState.queueFile ∧
     (process_result fireRuneMappings false emptyState fireRuneEvent).2.1.processed_results
       = (process_result fireRuneMappings true emptyState fireRuneEvent).2.1.processed_results) :=
  ⟨by decide, write_failure_tolerated fireRuneMappings emptyState fireRuneEvent (by decide)⟩

/-- C6: the state reader returns "no data" (`none`) when the state file
is absent, when it cannot be opened, and when its contents fail to
parse; none of these conditions escapes as an exception (the reader is a
total function), and since the reader is stateless, a poll that follows
a malformed read and finds valid contents returns the parsed snapshot —
recovery without restart. -/
theorem state_reader_tolerant (parse : String → Option ResultEvent)
    (badRaw goodRaw : String) (ev : ResultEvent)
    (hbad : parse badRaw = none) (hgood : parse goodRaw = some ev) :
    read_data_file parse FileState.absent = none ∧
    read_data_file parse FileState.unreadable = none ∧
    read_data_file parse (FileState.content badRaw) = none ∧
    read_data_file parse (FileState.content goodRaw) = some ev :=
  ⟨rfl, rfl, hbad, hgood⟩

/-- Witness for C6: a malformed poll followed by a valid one. -/
theorem state_reader_tolerant_witness :
    demoParse "bad" = none ∧ demoParse "ok" = some fireRuneEvent ∧
    (read_data_file demoParse FileState.absent = none ∧
     read_data_file demoParse FileState.unreadable = none ∧
     read_data_file demoParse (FileState.content "bad") = none ∧
     read_data_file demoParse (FileState.content "ok") = some fireRuneEvent) :=
  ⟨by decide, by decide,
   state_reader_tolerant demoParse "bad" "ok" fireRuneEvent (by decide) (by decide)⟩

end ConsoleExecutor

namespace ConsoleExecutor

/-- C7: an event whose result trims to the empty string is never
dispatched, for every mapping table, write outcome, state and timestamp:
the call returns `False`, changes no state (in particular the queue file
receives nothing) and performs no effect. -/
theorem blank_result_not_dispatched (mappings : Mappings) (writeOk : Bool)
    (st : ExecState) (e : ResultEvent) (h : pyStrip e.result = "") :
    process_result mappings writeOk st e = (false, st, []) := by
  by_cases hk : resultKeyOf (pyStrip e.result) e.timestamp ∈ st.processed_results
  · exact process_result_skip mappings writeOk st e hk
  · simp [process_result, hk, h]

/-- Witness for C7 on an all-whitespace result. -/
theorem blank_result_not_dispatched_witness :
    pyStrip blankEvent.result = "" ∧
    process_result fireRuneMappings true emptyState blankEvent = (false, emptyState, []) :=
  ⟨by decide, blank_result_not_dispatched fireRuneMappings true emptyState blankEvent (by decide)⟩

/-- C8: an event whose trimmed result is non-empty but absent from the
mapping table is silently ignored: the call returns `False`, changes no
state (no command is written) and performs no effect — and, being total,
raises no error. -/
theorem unmapped_result_not_dispatched (mappings : Mappings) (writeOk : Bool)
    (st : ExecState) (e : ResultEvent)
    (h₁ : pyStrip e.result ≠ "")
    (h₂ : dictGet mappings (pyStrip e.result) = none) :
    process_result mappings writeOk st e = (false, st, []) := by
  by_cases hk : resultKeyOf (pyStrip e.result) e.timestamp ∈ st.processed_results
  · exact process_result_skip mappings writeOk st e hk
  · simp [process_result, hk, h₁, h₂]

/-- Witness for C8 on an unmapped result. -/
theorem unmapped_result_not_dispatched_witness :
    pyStrip unmappedEvent.result ≠ "" ∧
    dictGet fireRuneMappings (pyStrip unmappedEvent.result) = none ∧
    process_result fireRuneMappings true emptyState unmappedEvent = (false, emptyState, []) :=
  ⟨by decide, by decide,
   unmapped_result_not_dispatched fireRuneMappings true emptyState unmappedEvent
     (by decide) (by decide)⟩

/-- C9: a successful `write_command_queue` call reports success and
leaves the queue file equal to its prior contents followed by exactly
one newline-terminated line per command, in the given order; and the
spec's round trip — dispatching the Fire Rune snapshot against the Fire
Rune mapping over an empty queue file — appends exactly the single line
`CAST_FIRE`. -/
theorem queue_writer_appends (file : String) (commands : List String) :
    (write_command_queue true file commands).1 = true ∧
    (write_command_queue true file commands).2
      = file ++ commands.foldr (fun cmd acc => cmd ++ "\n" ++ acc) "" ∧
    (process_result fireRuneMappings true emptyState fireRuneEvent).1 = true ∧
    (process_result fireRuneMappings true emptyState fireRuneEvent).2.1.queueFile
      = "CAST_FIRE\n" :=
  ⟨rfl, write_fold_eq commands file, by decide, by decide⟩

/-- C10: when the options file parses as an object with no `options`
field, `load_action_mappings` reports success with an empty mapping
table, `run` proceeds into the poll loop — and with an empty table every
`process_result` call returns "not dispatched" without any effect, so no
command can ever be dispatched. -/
theorem missing_options_field_empty_table (fields : List (String × Json))
    (h : jGet fields "options" = none) :
    load_action_mappings (some (Json.obj fields)) = (true, []) ∧
    run (some (Json.obj fields)) = RunOutcome.enteredLoop [] ∧
    ∀ (writeOk : Bool) (st : ExecState) (e : ResultEvent),
      process_result [] writeOk st e = (false, st, []) := by
  have hload : load_action_mappings (some (Json.obj fields)) = (true, []) := by
    simp [load_action_mappings, h, loadLoop]
  refine ⟨hload, ?_, ?_⟩
  · unfold run
    rw [hload]
  · intro writeOk st e
    by_cases hk : resultKeyOf (pyStrip e.result) e.timestamp ∈ st.processed_results
    · exact process_result_skip [] writeOk st e hk
    · by_cases hr : pyStrip e.result = ""
      · simp [process_result, hk, hr]
      · have hd : dictGet [] (pyStrip e.result) = none := rfl
        simp [process_result, hk, hr, hd]

/-- Witness for C10: an object whose only field is not `options`. -/
theorem missing_options_field_empty_table_witness :
    jGet [("opts", Json.str "x")] "options" = none ∧
    (load_action_mappings (some (Json.obj [("opts", Json.str "x")])) = (true, []) ∧
     run (some (Json.obj [("opts", Json.str "x")])) = RunOutcome.enteredLoop [] ∧
     process_result [] true emptyState fireRuneEvent = (false, emptyState, [])) :=
  ⟨by rfl,
   ⟨(missing_options_field_empty_table [("opts", Json.str "x")] (by rfl)).1,
    (missing_options_field_empty_table [("opts", Json.str "x")] (by rfl)).2.1,
    (missing_options_field_empty_table [("opts", Json.str "x")] (by rfl)).2.2
      true emptyState fireRuneEvent⟩⟩

end ConsoleExecutor
